import Mathlib

/-!
Tick: store operations and HTTP handlers.

A shallow embedding of `internal/db/db.go` and `internal/handlers/handlers.go`.

* The two SQL tables are lists of rows kept in rowid order, each with the
  `sqlite_sequence` counter that `AUTOINCREMENT` maintains.
* Every SQL statement takes a `Fault`: `none` when the engine ran the
  statement, `some msg` when it reported a storage-layer failure.
* The clock readings (`time.Now()` in the handler, `CURRENT_TIMESTAMP` in the
  engine) are inputs collected in `Env`.
* A handler run yields the HTTP response, the store after the run and the
  list of store methods it invoked.
-/

namespace Tick

/-! ## Go values -/

deriving instance DecidableEq for Except

/-- A Go slice value: `nil` is the zero value of `[]T`, `mk xs` a non-nil slice. -/
inductive Slice (α : Type) where
  | nil : Slice α
  | mk (xs : List α) : Slice α
  deriving DecidableEq, Repr

/-- Go `append(s, x)`: appending to the nil slice allocates a non-nil one. -/
def Slice.append {α : Type} : Slice α → α → Slice α
  | .nil, x => .mk [x]
  | .mk xs, x => .mk (xs ++ [x])

/-- The elements of a slice; the nil slice has none. -/
def Slice.toList {α : Type} : Slice α → List α
  | .nil => []
  | .mk xs => xs

/-- Two's complement wrap-around of Go `int` arithmetic (64 bit). -/
def wrap64 (x : Int) : Int := (x + 2 ^ 63) % 2 ^ 64 - 2 ^ 63

/-- Failure kinds of `strconv.ParseInt`. -/
inductive NumError where
  | malformed
  | outOfRange
  deriving DecidableEq, Repr

/-- The digit loop of `strconv.ParseUint(s, 10, 64)`: `n` is the value read so
far.  Any byte that is not a decimal digit is a syntax error; an overflow of
`uint64` is a range error, reported as soon as it happens. -/
def parseDigits : List Char → Nat → Except NumError Nat
  | [], n => .ok n
  | c :: cs, n =>
    if '0'.toNat ≤ c.toNat ∧ c.toNat ≤ '9'.toNat then
      let d := c.toNat - '0'.toNat
      if n ≥ (2 ^ 64 - 1) / 10 + 1 then .error .outOfRange
      else if n * 10 + d > 2 ^ 64 - 1 then .error .outOfRange
      else parseDigits cs (n * 10 + d)
    else .error .malformed

/-- Go `strconv.ParseUint(s, 10, 64)` on the characters of `s`. -/
def ParseUint (s : List Char) : Except NumError Nat :=
  match s with
  | [] => .error .malformed
  | _ :: _ => parseDigits s 0

/-- Go `strconv.ParseInt(s, 10, 64)`: an optional sign, then decimal digits,
the value within `[-2^63, 2^63 - 1]`. -/
def ParseInt (s : String) : Except NumError Int :=
  match s.data with
  | [] => .error .malformed
  | c :: cs =>
    let neg := c = '-'
    let rest := if c = '+' ∨ c = '-' then cs else c :: cs
    match ParseUint rest with
    | .error .malformed => .error .malformed
    | .error .outOfRange => .error .outOfRange
    | .ok un =>
      if ¬ neg ∧ un ≥ 2 ^ 63 then .error .outOfRange
      else if neg ∧ un > 2 ^ 63 then .error .outOfRange
      else .ok (if neg then - (un : Int) else (un : Int))

/-! ## Store (`internal/db/db.go`) -/

/-- Errors returned by the store methods: `ErrNotFound`, or the raw error of
the storage layer. -/
inductive DbError where
  | notFound
  | storage (msg : String)
  deriving DecidableEq, Repr

/-- Go `err.Error()`. -/
def DbError.text : DbError → String
  | .notFound => "not found"
  | .storage msg => msg

/-- Outcome the SQL engine reports for one statement: `none` when it ran. -/
abbrev Fault := Option String

/-- A row of table `tasks`. -/
structure TaskRow where
  id : Int
  title : String
  completed : Int
  date : String
  created_at : String
  deriving DecidableEq, Repr

/-- A row of table `quicklinks`. -/
structure QuicklinkRow where
  id : Int
  name : String
  url : String
  created_at : String
  deriving DecidableEq, Repr

/-- Go `type Task struct`. -/
structure Task where
  ID : Int
  Title : String
  Completed : Bool
  Date : String
  CreatedAt : String
  deriving DecidableEq, Repr

/-- Go `type Quicklink struct`. -/
structure Quicklink where
  ID : Int
  Name : String
  URL : String
  CreatedAt : String
  deriving DecidableEq, Repr

/-- The database after `Migrate`: both tables in rowid order and their
`sqlite_sequence` counters. -/
structure Store where
  tasks : List TaskRow
  taskSeq : Int
  quicklinks : List QuicklinkRow
  quicklinkSeq : Int
  deriving DecidableEq, Repr

/-- The database right after `Migrate` ran on a fresh file. -/
def Store.empty : Store := ⟨[], 0, [], 0⟩

/-- Bytewise comparison of two texts (`memcmp`, the BINARY collation). -/
def textLe : List Char → List Char → Bool
  | [], _ => true
  | _ :: _, [] => false
  | a :: as, b :: bs =>
    if a.toNat < b.toNat then true
    else if b.toNat < a.toNat then false
    else textLe as bs

/-- The order of `ORDER BY created_at` on task rows. -/
def taskOrder (a b : TaskRow) : Prop := textLe a.created_at.data b.created_at.data = true

instance : DecidableRel taskOrder := fun a b =>
  inferInstanceAs (Decidable (textLe a.created_at.data b.created_at.data = true))

/-- The order of `ORDER BY created_at` on quicklink rows. -/
def quicklinkOrder (a b : QuicklinkRow) : Prop :=
  textLe a.created_at.data b.created_at.data = true

instance : DecidableRel quicklinkOrder := fun a b =>
  inferInstanceAs (Decidable (textLe a.created_at.data b.created_at.data = true))

/-- The body of the `rows.Next()` loop of `GetTasks`: `rows.Scan` and
`t.Completed = completed == 1`. -/
def scanTask (r : TaskRow) : Task :=
  { ID := r.id, Title := r.title, Completed := r.completed == 1, Date := r.date,
    CreatedAt := r.created_at }

/-- The body of the `rows.Next()` loop of `GetQuicklinks`. -/
def scanQuicklink (r : QuicklinkRow) : Quicklink :=
  { ID := r.id, Name := r.name, URL := r.url, CreatedAt := r.created_at }

/-- The rows of `SELECT ... FROM tasks WHERE date = ? ORDER BY created_at`. -/
def selectTasks (s : Store) (date : String) : List TaskRow :=
  List.insertionSort taskOrder (s.tasks.filter (fun r => r.date == date))

/-- Go `GetTasks`: the query, then the scan loop appending to `var tasks []Task`. -/
def GetTasks (s : Store) (f : Fault) (date : String) : Except DbError (Slice Task) :=
  match f with
  | some e => .error (.storage e)
  | none =>
    .ok ((selectTasks s date).foldl (fun tasks r => tasks.append (scanTask r)) Slice.nil)

/-- The rowid `AUTOINCREMENT` assigns next: one more than the largest rowid the
table holds or ever held. -/
def nextId (seq : Int) (ids : List Int) : Int := ids.foldl max seq + 1

/-- Go `CreateTask`: `INSERT INTO tasks (title, date)`; `completed` takes its
default 0, `created_at` the engine's `CURRENT_TIMESTAMP` (`now`).  The returned
`Task` carries the new id and the two arguments; its `CreatedAt` is left at the
zero value. -/
def CreateTask (s : Store) (f : Fault) (now title date : String) :
    Except DbError Task × Store :=
  match f with
  | some e => (.error (.storage e), s)
  | none =>
    let id := nextId s.taskSeq (s.tasks.map (fun r => r.id))
    if id > 2 ^ 63 - 1 then (.error (.storage "database or disk is full"), s)
    else
      (.ok { ID := id, Title := title, Date := date, Completed := false, CreatedAt := "" },
       { s with tasks := s.tasks ++ [⟨id, title, 0, date, now⟩], taskSeq := id })

/-- The first row of `SELECT completed FROM tasks WHERE id = ?`. -/
def findTask (s : Store) (id : Int) : Option TaskRow :=
  s.tasks.find? (fun r => r.id == id)

/-- Go `ToggleTask`: `fSel` is the outcome of the `SELECT`, `fUpd` of the
`UPDATE`.  On success the result is `completed == 0`. -/
def ToggleTask (s : Store) (fSel fUpd : Fault) (id : Int) : Except DbError Bool × Store :=
  match fSel with
  | some e => (.error (.storage e), s)
  | none =>
    match findTask s id with
    | none => (.error .notFound, s)
    | some r =>
      let completed := r.completed
      match fUpd with
      | some e => (.error (.storage e), s)
      | none =>
        (.ok (completed == 0),
         { s with tasks := s.tasks.map (fun x =>
             if x.id = id then { x with completed := wrap64 (1 - completed) } else x) })

/-- Go `DeleteTask`: the `DELETE`, then `RowsAffected() == 0` gives `ErrNotFound`. -/
def DeleteTask (s : Store) (f : Fault) (id : Int) : Except DbError Unit × Store :=
  match f with
  | some e => (.error (.storage e), s)
  | none =>
    let rows := s.tasks.countP (fun r => r.id == id)
    let s' := { s with tasks := s.tasks.filter (fun r => r.id != id) }
    if rows = 0 then (.error .notFound, s') else (.ok (), s')

/-- Go `GetQuicklinks`. -/
def GetQuicklinks (s : Store) (f : Fault) : Except DbError (Slice Quicklink) :=
  match f with
  | some e => .error (.storage e)
  | none =>
    .ok ((List.insertionSort quicklinkOrder s.quicklinks).foldl
      (fun links r => links.append (scanQuicklink r)) Slice.nil)

/-- Go `CreateQuicklink`. -/
def CreateQuicklink (s : Store) (f : Fault) (now name url : String) :
    Except DbError Quicklink × Store :=
  match f with
  | some e => (.error (.storage e), s)
  | none =>
    let id := nextId s.quicklinkSeq (s.quicklinks.map (fun r => r.id))
    if id > 2 ^ 63 - 1 then (.error (.storage "database or disk is full"), s)
    else
      (.ok { ID := id, Name := name, URL := url, CreatedAt := "" },
       { s with quicklinks := s.quicklinks ++ [⟨id, name, url, now⟩], quicklinkSeq := id })

/-- Go `DeleteQuicklink`: the `DELETE` alone; the number of affected rows is
not looked at. -/
def DeleteQuicklink (s : Store) (f : Fault) (id : Int) : Except DbError Unit × Store :=
  match f with
  | some e => (.error (.storage e), s)
  | none => (.ok (), { s with quicklinks := s.quicklinks.filter (fun r => r.id != id) })

/-! ## Handlers (`internal/handlers/handlers.go`) -/

/-- A JSON value, as `encoding/json` produces it. -/
inductive Json where
  | null : Json
  | bool (b : Bool) : Json
  | num (n : Int) : Json
  | str (s : String) : Json
  | arr (xs : List Json) : Json
  | obj (fields : List (String × Json)) : Json

/-- What `json.Encoder.Encode` writes for a `Task`. -/
def encodeTask (t : Task) : Json :=
  .obj [("id", .num t.ID), ("title", .str t.Title), ("completed", .bool t.Completed),
        ("date", .str t.Date), ("created_at", .str t.CreatedAt)]

/-- What `json.Encoder.Encode` writes for a `Quicklink`. -/
def encodeQuicklink (l : Quicklink) : Json :=
  .obj [("id", .num l.ID), ("name", .str l.Name), ("url", .str l.URL),
        ("created_at", .str l.CreatedAt)]

/-- What `json.Encoder.Encode` writes for a slice: a nil slice encodes as the
JSON value `null`, a non-nil slice as an array. -/
def encodeSlice {α : Type} (enc : α → Json) : Slice α → Json
  | .nil => .null
  | .mk xs => .arr (xs.map enc)

/-- The body of an HTTP response. -/
inductive Body where
  | empty : Body
  | text (s : String) : Body
  | json (j : Json) : Body

/-- An HTTP response: status code and body. -/
structure Response where
  status : Nat
  body : Body

/-- Go `http.Error(w, msg, code)`: the message followed by a newline. -/
def httpError (msg : String) (code : Nat) : Response := ⟨code, .text (msg ++ "\n")⟩

/-- A successful `json.NewEncoder(w).Encode(v)` with no status written before:
status 200. -/
def jsonOK (j : Json) : Response := ⟨200, .json j⟩

/-- Go `r.Method`. -/
inductive Method where
  | GET
  | POST
  | PATCH
  | DELETE
  | other (name : String)
  deriving DecidableEq, Repr

/-- The request struct of the tasks `POST` body. -/
structure TaskReq where
  Title : String
  Date : String
  deriving DecidableEq, Repr

/-- The request struct of the quicklinks `POST` body. -/
structure QuicklinkReq where
  Name : String
  URL : String
  deriving DecidableEq, Repr

/-- The parts of `*http.Request` the handlers read: the method, the query
parameters `date` and `id` (`""` when absent) and the outcome of
`json.NewDecoder(r.Body).Decode(&req)` (the decoded struct, a missing field
left at `""`, or the decoder's error text). -/
structure Request (β : Type) where
  method : Method
  queryDate : String
  queryId : String
  decoded : Except String β

/-- What a handler run reads from outside: the two readings of
`time.Now().Format("2006-01-02")` in `Tasks` (the query default at entry, the
body default in `POST`), the engine's `CURRENT_TIMESTAMP`, and the outcomes of
the first and second SQL statement run. -/
structure Env where
  today : String
  todayPost : String
  timestamp : String
  fault1 : Fault
  fault2 : Fault

/-- A store method invoked by a handler, with its arguments. -/
inductive Call where
  | getTasks (date : String)
  | createTask (title date : String)
  | toggleTask (id : Int)
  | deleteTask (id : Int)
  | getQuicklinks
  | createQuicklink (name url : String)
  | deleteQuicklink (id : Int)
  deriving DecidableEq, Repr

/-- The result of a handler run: the response, the store afterwards, and the
store methods invoked, in order. -/
structure Outcome where
  resp : Response
  store : Store
  calls : List Call

/-- Go `(*API).Tasks`. -/
def Tasks (env : Env) (r : Request TaskReq) (s : Store) : Outcome :=
  let date := if r.queryDate = "" then env.today else r.queryDate
  match r.method with
  | .GET =>
    match GetTasks s env.fault1 date with
    | .error err => ⟨httpError err.text 500, s, [.getTasks date]⟩
    | .ok tasks => ⟨jsonOK (encodeSlice encodeTask tasks), s, [.getTasks date]⟩
  | .POST =>
    match r.decoded with
    | .error msg => ⟨httpError msg 400, s, []⟩
    | .ok req =>
      if req.Title = "" then ⟨httpError "title is required" 400, s, []⟩
      else
        let reqDate := if req.Date = "" then env.todayPost else req.Date
        match CreateTask s env.fault1 env.timestamp req.Title reqDate with
        | (.error err, s') => ⟨httpError err.text 500, s', [.createTask req.Title reqDate]⟩
        | (.ok task, s') => ⟨jsonOK (encodeTask task), s', [.createTask req.Title reqDate]⟩
  | .PATCH =>
    match ParseInt r.queryId with
    | .error _ => ⟨httpError "invalid id" 400, s, []⟩
    | .ok id =>
      match ToggleTask s env.fault1 env.fault2 id with
      | (.error _, s') => ⟨httpError "task not found" 404, s', [.toggleTask id]⟩
      | (.ok completed, s') =>
        ⟨jsonOK (.obj [("completed", .bool completed)]), s', [.toggleTask id]⟩
  | .DELETE =>
    match ParseInt r.queryId with
    | .error _ => ⟨httpError "invalid id" 400, s, []⟩
    | .ok id =>
      match DeleteTask s env.fault1 id with
      | (.error _, s') => ⟨httpError "task not found" 404, s', [.deleteTask id]⟩
      | (.ok _, s') => ⟨⟨204, .empty⟩, s', [.deleteTask id]⟩
  | .other _ => ⟨⟨200, .empty⟩, s, []⟩

/-- Go `(*API).Quicklinks`. -/
def Quicklinks (env : Env) (r : Request QuicklinkReq) (s : Store) : Outcome :=
  match r.method with
  | .GET =>
    match GetQuicklinks s env.fault1 with
    | .error err => ⟨httpError err.text 500, s, [.getQuicklinks]⟩
    | .ok links => ⟨jsonOK (encodeSlice encodeQuicklink links), s, [.getQuicklinks]⟩
  | .POST =>
    match r.decoded with
    | .error msg => ⟨httpError msg 400, s, []⟩
    | .ok req =>
      if req.Name = "" then ⟨httpError "name is required" 400, s, []⟩
      else if req.URL = "" then ⟨httpError "url is required" 400, s, []⟩
      else
        match CreateQuicklink s env.fault1 env.timestamp req.Name req.URL with
        | (.error err, s') => ⟨httpError err.text 500, s', [.createQuicklink req.Name req.URL]⟩
        | (.ok link, s') => ⟨jsonOK (encodeQuicklink link), s', [.createQuicklink req.Name req.URL]⟩
  | .PATCH => ⟨⟨200, .empty⟩, s, []⟩
  | .DELETE =>
    match ParseInt r.queryId with
    | .error _ => ⟨httpError "invalid id" 400, s, []⟩
    | .ok id =>
      match DeleteQuicklink s env.fault1 id with
      | (.error err, s') => ⟨httpError err.text 500, s', [.deleteQuicklink id]⟩
      | (.ok _, s') => ⟨⟨204, .empty⟩, s', [.deleteQuicklink id]⟩
  | .other _ => ⟨⟨200, .empty⟩, s, []⟩

/-! ## Store constraints -/

/-- The constraints on table `tasks` that hold in the fresh store and that every
store method keeps: ids are unique (`PRIMARY KEY`) and `completed` is 0 or 1. -/
def Store.Valid (s : Store) : Prop :=
  (s.tasks.map (fun r => r.id)).Nodup ∧ ∀ r ∈ s.tasks, r.completed = 0 ∨ r.completed = 1

/-! ## Sample data -/

/-- A store with three tasks over two dates and one quicklink. -/
def sampleStore : Store :=
  { tasks := [⟨1, "write report", 0, "2024-03-04", "2024-03-04 09:15:00"⟩,
              ⟨2, "call bank", 1, "2024-03-04", "2024-03-04 08:00:00"⟩,
              ⟨3, "water plants", 0, "2024-03-05", "2024-03-05 07:45:00"⟩],
    taskSeq := 3,
    quicklinks := [⟨1, "docs", "https://go.dev/doc", "2024-03-01 12:00:00"⟩],
    quicklinkSeq := 1 }

/-- A run just after local midnight with a working engine: the date reading at
handler entry is the 4th, the one in the `POST` branch the 5th. -/
def sampleEnv : Env :=
  { today := "2024-03-04", todayPost := "2024-03-05", timestamp := "2024-03-04 23:00:00",
    fault1 := none, fault2 := none }

/-- A run in which the engine fails the first statement. -/
def faultyEnv : Env :=
  { today := "2024-03-05", todayPost := "2024-03-05", timestamp := "2024-03-05 10:00:00",
    fault1 := some "disk I/O error", fault2 := none }

/-! ## Auxiliary facts -/

theorem textLe_total (a b : List Char) : textLe a b = true ∨ textLe b a = true := by
  induction a generalizing b with
  | nil => simp [textLe]
  | cons x xs ih =>
    cases b with
    | nil => simp [textLe]
    | cons y ys =>
      simp only [textLe]
      rcases Nat.lt_trichotomy x.toNat y.toNat with h | h | h
      · simp [h]
      · simpa [h] using ih ys
      · right; simp [h]

theorem textLe_trans {a b c : List Char} (hab : textLe a b = true) (hbc : textLe b c = true) :
    textLe a c = true := by
  induction a generalizing b c with
  | nil => simp [textLe]
  | cons x xs ih =>
    cases b with
    | nil => simp [textLe] at hab
    | cons y ys =>
      cases c with
      | nil => simp [textLe] at hbc
      | cons z zs =>
        simp only [textLe] at hab hbc ⊢
        split_ifs at hab hbc ⊢ <;> first | rfl | omega | exact ih hab hbc

theorem foldl_append_toList {α β : Type} (f : β → α) (l : List β) (acc : Slice α) :
    (l.foldl (fun a r => a.append (f r)) acc).toList = acc.toList ++ l.map f := by
  induction l generalizing acc with
  | nil => simp
  | cons x xs ih =>
    rw [List.foldl_cons, ih]
    cases acc <;> simp [Slice.append, Slice.toList]

theorem selectTasks_perm (s : Store) (d : String) :
    (selectTasks s d).Perm (s.tasks.filter (fun r => r.date == d)) :=
  List.perm_insertionSort _ _

theorem selectTasks_sorted (s : Store) (d : String) :
    (selectTasks s d).Sorted taskOrder := by
  haveI : IsTotal TaskRow taskOrder := ⟨fun _ _ => textLe_total _ _⟩
  haveI : IsTrans TaskRow taskOrder := ⟨fun _ _ _ h₁ h₂ => textLe_trans h₁ h₂⟩
  exact List.sorted_insertionSort _ _

theorem filter_ne_of_absent (l : List TaskRow) (id : Int) (h : ∀ r ∈ l, r.id ≠ id) :
    l.filter (fun r => r.id != id) = l := by
  rw [List.filter_eq_self]
  intro r hr
  simpa using h r hr

theorem countP_eq_zero_iff_absent (l : List TaskRow) (id : Int) :
    l.countP (fun r => r.id == id) = 0 ↔ ∀ r ∈ l, r.id ≠ id := by
  simp [List.countP_eq_zero]

theorem find_of_mem_nodup (l : List TaskRow) (r : TaskRow)
    (hnd : (l.map (fun x => x.id)).Nodup) (hr : r ∈ l) :
    l.find? (fun x => x.id == r.id) = some r := by
  induction l with
  | nil => cases hr
  | cons a as ih =>
    rw [List.map_cons, List.nodup_cons] at hnd
    rcases List.mem_cons.1 hr with rfl | hmem
    · simp
    · have hne : a.id ≠ r.id := by
        intro h
        exact hnd.1 (h ▸ List.mem_map.2 ⟨r, hmem, rfl⟩)
      rw [List.find?_cons_of_neg _ (by simpa using hne)]
      exact ih hnd.2 hmem

theorem find_eq_none_of_absent (l : List TaskRow) (id : Int) (h : ∀ r ∈ l, r.id ≠ id) :
    l.find? (fun x => x.id == id) = none := by
  rw [List.find?_eq_none]
  intro r hr
  simpa using h r hr

theorem find_map_set_completed (l : List TaskRow) (id v : Int) (r : TaskRow)
    (h : l.find? (fun x => x.id == id) = some r) :
    (l.map (fun x => if x.id = id then { x with completed := v } else x)).find?
      (fun x => x.id == id) = some { r with completed := v } := by
  induction l with
  | nil => simp at h
  | cons a as ih =>
    by_cases ha : a.id = id
    · simp only [List.find?_cons, ha, beq_self_eq_true] at h
      cases h
      simp [List.find?_cons, ha]
    · have hb : (a.id == id) = false := by simpa using ha
      rw [List.find?_cons, hb] at h
      simp only [List.map_cons, ha, if_false, List.find?_cons, hb]
      exact ih h

theorem map_set_completed_restore (l : List TaskRow) (id v : Int) (r : TaskRow)
    (hnd : (l.map (fun x => x.id)).Nodup) (hr : r ∈ l) (hid : r.id = id) :
    (l.map (fun x => if x.id = id then { x with completed := v } else x)).map
      (fun x => if x.id = id then { x with completed := r.completed } else x) = l := by
  rw [List.map_map]
  conv_rhs => rw [← List.map_id l]
  apply List.map_congr_left
  intro x hx
  by_cases hxid : x.id = id
  · have hxr : x = r :=
      List.inj_on_of_nodup_map hnd hx hr (by rw [hxid, hid])
    subst hxr
    cases x with
    | mk xi xt xc xd xcr =>
      simp only at hxid
      subst hxid
      simp
  · simp [hxid]

theorem wrap64_of_range (x : Int) (h₁ : -(2 ^ 63) ≤ x) (h₂ : x < 2 ^ 63) : wrap64 x = x := by
  unfold wrap64
  norm_num at h₁ h₂ ⊢
  omega

theorem le_foldl_max (ids : List Int) (seq : Int) : seq ≤ ids.foldl max seq := by
  induction ids generalizing seq with
  | nil => exact le_refl _
  | cons a as ih => exact le_trans (le_max_left seq a) (ih (max seq a))

theorem mem_le_foldl_max (ids : List Int) (seq x : Int) (hx : x ∈ ids) :
    x ≤ ids.foldl max seq := by
  induction ids generalizing seq with
  | nil => cases hx
  | cons a as ih =>
    rcases List.mem_cons.1 hx with rfl | h
    · exact le_trans (le_max_right seq x) (le_foldl_max as (max seq x))
    · exact ih (max seq a) h

theorem lt_nextId (ids : List Int) (seq x : Int) (hx : x ∈ ids) : x < nextId seq ids := by
  have := mem_le_foldl_max ids seq x hx
  unfold nextId
  omega

theorem createTask_fault (s : Store) (e now title date : String) :
    CreateTask s (some e) now title date = (.error (.storage e), s) := rfl

theorem createTask_full (s : Store) (now title date : String)
    (h : nextId s.taskSeq (s.tasks.map (fun r => r.id)) > 2 ^ 63 - 1) :
    CreateTask s none now title date = (.error (.storage "database or disk is full"), s) := by
  show (if _ then _ else _) = _
  rw [if_pos h]

theorem createTask_ok (s : Store) (now title date : String)
    (h : ¬ nextId s.taskSeq (s.tasks.map (fun r => r.id)) > 2 ^ 63 - 1) :
    CreateTask s none now title date =
      (.ok ⟨nextId s.taskSeq (s.tasks.map (fun r => r.id)), title, false, date, ""⟩,
       { s with
         tasks := s.tasks ++ [⟨nextId s.taskSeq (s.tasks.map (fun r => r.id)), title, 0, date, now⟩],
         taskSeq := nextId s.taskSeq (s.tasks.map (fun r => r.id)) }) := by
  show (if _ then _ else _) = _
  rw [if_neg h]

/-! ## The store constraints are kept -/

theorem valid_empty : Store.empty.Valid :=
  ⟨List.nodup_nil, fun _ h => by cases h⟩

theorem valid_createTask (s : Store) (f : Fault) (now title date : String) (h : s.Valid) :
    (CreateTask s f now title date).2.Valid := by
  cases f with
  | some e => exact h
  | none =>
    by_cases hfull : nextId s.taskSeq (s.tasks.map (fun r => r.id)) > 2 ^ 63 - 1
    · rw [createTask_full s _ _ _ hfull]; exact h
    · rw [createTask_ok s _ _ _ hfull]
      constructor
      · simp only [List.map_append, List.map_cons, List.map_nil]
        rw [List.nodup_append]
        refine ⟨h.1, List.nodup_singleton _, ?_⟩
        intro a ha hb
        rw [List.mem_singleton] at hb
        have := lt_nextId _ s.taskSeq a ha
        omega
      · intro r hr
        rcases List.mem_append.1 hr with hr | hr
        · exact h.2 r hr
        · rw [List.mem_singleton] at hr
          subst hr
          exact Or.inl rfl

theorem valid_toggleTask (s : Store) (f₁ f₂ : Fault) (id : Int) (h : s.Valid) :
    (ToggleTask s f₁ f₂ id).2.Valid := by
  unfold ToggleTask
  cases f₁ with
  | some e => exact h
  | none =>
    cases hfind : findTask s id with
    | none => exact h
    | some t =>
      cases f₂ with
      | some e => exact h
      | none =>
        have ht : t.completed = 0 ∨ t.completed = 1 := h.2 t (List.mem_of_find?_eq_some hfind)
        have hw : wrap64 (1 - t.completed) = 0 ∨ wrap64 (1 - t.completed) = 1 := by
          rcases ht with e | e <;> rw [e] <;> decide
        constructor
        · have hids : (s.tasks.map (fun x =>
              if x.id = id then { x with completed := wrap64 (1 - t.completed) } else x)).map
                (fun r => r.id) = s.tasks.map (fun r => r.id) := by
            rw [List.map_map]
            apply List.map_congr_left
            intro x _
            by_cases hx : x.id = id <;> simp [hx]
          simp only
          rw [hids]
          exact h.1
        · intro r hr
          obtain ⟨x, hx, rfl⟩ := List.mem_map.1 hr
          by_cases hxid : x.id = id
          · simpa [hxid] using hw
          · simpa [hxid] using h.2 x hx

theorem valid_deleteTask (s : Store) (f : Fault) (id : Int) (h : s.Valid) :
    (DeleteTask s f id).2.Valid := by
  unfold DeleteTask
  cases f with
  | some e => exact h
  | none =>
    have hv : Store.Valid { s with tasks := s.tasks.filter (fun r => r.id != id) } :=
      ⟨(List.filter_sublist _).map _ |>.nodup h.1, fun r hr => h.2 r (List.mem_filter.1 hr).1⟩
    by_cases h0 : s.tasks.countP (fun r => r.id == id) = 0
    · simpa [h0] using hv
    · simpa [h0] using hv

/-- Every run of the tasks handler keeps the store constraints. -/
theorem valid_Tasks (env : Env) (r : Request TaskReq) (s : Store) (h : s.Valid) :
    (Tasks env r s).store.Valid := by
  unfold Tasks
  cases r.method with
  | GET => simp only; split <;> exact h
  | POST =>
    simp only
    split
    · exact h
    · split
      · exact h
      · have hv := valid_createTask s env.fault1 env.timestamp ‹TaskReq›.Title
          (if ‹TaskReq›.Date = "" then env.todayPost else ‹TaskReq›.Date) h
        split <;> rename_i heq <;> rw [heq] at hv <;> exact hv
  | PATCH =>
    simp only
    split
    · exact h
    · rename_i id _
      have hv := valid_toggleTask s env.fault1 env.fault2 id h
      split <;> rename_i heq <;> rw [heq] at hv <;> exact hv
  | DELETE =>
    simp only
    split
    · exact h
    · rename_i id _
      have hv := valid_deleteTask s env.fault1 id h
      split <;> rename_i heq <;> rw [heq] at hv <;> exact hv
  | other _ => exact h

/-- Every run of the quicklinks handler keeps the store constraints. -/
theorem valid_Quicklinks (env : Env) (r : Request QuicklinkReq) (s : Store) (h : s.Valid) :
    (Quicklinks env r s).store.Valid := by
  have hc : ∀ now name url, (CreateQuicklink s env.fault1 now name url).2.Valid := by
    intro now name url
    unfold CreateQuicklink
    cases env.fault1 with
    | some e => exact h
    | none => simp only; split <;> exact h
  have hd : ∀ id, (DeleteQuicklink s env.fault1 id).2.Valid := by
    intro id
    unfold DeleteQuicklink
    cases env.fault1 <;> exact h
  unfold Quicklinks
  cases r.method with
  | GET => simp only; split <;> exact h
  | POST =>
    simp only
    split
    · exact h
    · split
      · exact h
      · split
        · exact h
        · have hv := hc env.timestamp ‹QuicklinkReq›.Name ‹QuicklinkReq›.URL
          split <;> rename_i heq <;> rw [heq] at hv <;> exact hv
  | PATCH => exact h
  | DELETE =>
    simp only
    split
    · exact h
    · rename_i id _
      have hv := hd id
      split <;> rename_i heq <;> rw [heq] at hv <;> exact hv
  | other _ => exact h

/-! ## Listing tasks -/

/-- C6: for every store and every date `d`, `GetTasks` (its query having run)
returns without error the scanned rows whose date is `d`, each as often as the
table holds it and no other, in ascending order of `created_at`; when no row
has date `d` the result has no element. -/
theorem getTasks_lists_date (s : Store) (d : String) :
    ∃ tasks, GetTasks s none d = .ok tasks ∧
      tasks.toList.Perm ((s.tasks.filter (fun r => r.date = d)).map scanTask) ∧
      (∀ t, t ∈ tasks.toList ↔ ∃ r ∈ s.tasks, r.date = d ∧ scanTask r = t) ∧
      tasks.toList.Sorted (fun a b => textLe a.CreatedAt.data b.CreatedAt.data = true) ∧
      ((∀ r ∈ s.tasks, r.date ≠ d) → tasks.toList = []) := by
  refine ⟨_, rfl, ?_, ?_, ?_, ?_⟩
  · rw [foldl_append_toList]
    simpa [Slice.toList] using (selectTasks_perm s d).map scanTask
  · intro t
    rw [foldl_append_toList]
    simp only [Slice.toList, List.nil_append, List.mem_map]
    constructor
    · rintro ⟨r, hr, rfl⟩
      have := (selectTasks_perm s d).mem_iff.1 hr
      simp only [List.mem_filter, beq_iff_eq] at this
      exact ⟨r, this.1, this.2, rfl⟩
    · rintro ⟨r, hr, hd, rfl⟩
      refine ⟨r, (selectTasks_perm s d).mem_iff.2 ?_, rfl⟩
      simp [List.mem_filter, hr, hd]
  · rw [foldl_append_toList]
    simp only [Slice.toList, List.nil_append]
    exact List.pairwise_map.2 (selectTasks_sorted s d)
  · intro h
    rw [foldl_append_toList]
    have : s.tasks.filter (fun r => r.date == d) = [] := by
      rw [List.filter_eq_nil_iff]
      intro r hr
      simpa using h r hr
    simp [Slice.toList, selectTasks, this]

/-! ## Deleting -/

/-- C2: `DeleteTask` (its statement having run) fails with `ErrNotFound` exactly
when no task row has the id, and then leaves the store as it was; when a row
has the id it succeeds, the rows left are the rows with another id in their old
order, one row fewer under unique ids, and nothing else changes.  Through the
`DELETE` handler of the tasks endpoint the first call for a stored task answers
204 and the second answers 404 "task not found". -/
theorem deleteTask_notFound_iff (s : Store) (id : Int) :
    ((DeleteTask s none id).1 = .error .notFound ↔ ∀ r ∈ s.tasks, r.id ≠ id) ∧
    ((∀ r ∈ s.tasks, r.id ≠ id) → (DeleteTask s none id).2 = s) ∧
    ((∃ r ∈ s.tasks, r.id = id) →
      (DeleteTask s none id).1 = .ok () ∧
      (∀ r, r ∈ (DeleteTask s none id).2.tasks ↔ r ∈ s.tasks ∧ r.id ≠ id) ∧
      (DeleteTask s none id).2.tasks.Sublist s.tasks ∧
      ((s.tasks.map (fun r => r.id)).Nodup →
        (DeleteTask s none id).2.tasks.length + 1 = s.tasks.length) ∧
      (DeleteTask s none id).2.taskSeq = s.taskSeq ∧
      (DeleteTask s none id).2.quicklinks = s.quicklinks ∧
      (DeleteTask s none id).2.quicklinkSeq = s.quicklinkSeq) ∧
    (∀ (env₁ env₂ : Env) (r₁ r₂ : Request TaskReq),
      env₁.fault1 = none → env₂.fault1 = none →
      r₁.method = .DELETE → r₂.method = .DELETE →
      ParseInt r₁.queryId = .ok id → ParseInt r₂.queryId = .ok id →
      (∃ r ∈ s.tasks, r.id = id) →
      (Tasks env₁ r₁ s).resp = ⟨204, .empty⟩ ∧
      (Tasks env₂ r₂ (Tasks env₁ r₁ s).store).resp = httpError "task not found" 404 ∧
      (Tasks env₂ r₂ (Tasks env₁ r₁ s).store).store = (Tasks env₁ r₁ s).store) := by
  have hcount := countP_eq_zero_iff_absent s.tasks id
  have hpresent : (∃ r ∈ s.tasks, r.id = id) → s.tasks.countP (fun r => r.id == id) ≠ 0 := by
    rintro ⟨r, hr, hid⟩ h0
    exact (hcount.1 h0) r hr hid
  refine ⟨?_, ?_, ?_, ?_⟩
  · simp only [DeleteTask]
    by_cases h0 : s.tasks.countP (fun r => r.id == id) = 0
    · simpa [h0] using hcount.1 h0
    · simp only [h0, if_false]
      constructor
      · intro h; cases h
      · intro h; exact absurd (hcount.2 h) h0
  · intro h
    simp only [DeleteTask, hcount.2 h, if_true, filter_ne_of_absent s.tasks id h]
  · intro h
    have h0 := hpresent h
    have hD : DeleteTask s none id =
        (.ok (), { s with tasks := s.tasks.filter (fun r => r.id != id) }) := by
      simp [DeleteTask, h0]
    rw [hD]
    refine ⟨rfl, ?_, List.filter_sublist _, ?_, rfl, rfl, rfl⟩
    · intro r
      simp [List.mem_filter]
    · intro hnd
      obtain ⟨r, hr, hid⟩ := h
      have hc : s.tasks.countP (fun x => x.id == id) = 1 := by
        have h1 : (s.tasks.map (fun r => r.id)).count id = 1 :=
          List.count_eq_one_of_mem hnd (List.mem_map.2 ⟨r, hr, hid⟩)
        rw [List.count, List.countP_map] at h1
        exact h1
      have hlen := List.length_eq_countP_add_countP (fun x : TaskRow => x.id == id) s.tasks
      rw [hc] at hlen
      have hf : (s.tasks.filter (fun x => x.id != id)).length =
          s.tasks.countP (fun x => ¬ (x.id == id) = true) := by
        rw [← List.countP_eq_length_filter]
        apply List.countP_congr
        intro x _
        simp
      simp only at hf ⊢
      omega
  · intro env₁ env₂ r₁ r₂ hf₁ hf₂ hm₁ hm₂ hp₁ hp₂ h
    have h0 := hpresent h
    have habs : ∀ r ∈ s.tasks.filter (fun r => r.id != id), r.id ≠ id := by
      intro r hr
      simpa using (List.mem_filter.1 hr).2
    have h1 : (s.tasks.filter (fun r => r.id != id)).countP (fun r => r.id == id) = 0 :=
      (countP_eq_zero_iff_absent _ id).2 habs
    have hstore : (Tasks env₁ r₁ s).store =
        { s with tasks := s.tasks.filter (fun r => r.id != id) } := by
      simp [Tasks, hm₁, hp₁, hf₁, DeleteTask, h0]
    refine ⟨by simp [Tasks, hm₁, hp₁, hf₁, DeleteTask, h0], ?_, ?_⟩
    · rw [hstore]
      simp [Tasks, hm₂, hp₂, hf₂, DeleteTask, h1]
    · rw [hstore]
      simp [Tasks, hm₂, hp₂, hf₂, DeleteTask, h1, filter_ne_of_absent _ id habs]

/-- C3: `DeleteQuicklink` never returns `ErrNotFound`, whatever the engine
reports; its statement having run, it succeeds whether or not a row has the
id, the rows left are those with another id, and a store with no such row is
left as it was.  So a second delete of the same id succeeds on the store the
first one left, and the `DELETE` handler of the quicklinks endpoint answers 204
both times. -/
theorem deleteQuicklink_never_notFound (s : Store) (id : Int) :
    (∀ f, (DeleteQuicklink s f id).1 ≠ .error .notFound) ∧
    (DeleteQuicklink s none id).1 = .ok () ∧
    (∀ r, r ∈ (DeleteQuicklink s none id).2.quicklinks ↔ r ∈ s.quicklinks ∧ r.id ≠ id) ∧
    ((∀ r ∈ s.quicklinks, r.id ≠ id) → DeleteQuicklink s none id = (.ok (), s)) ∧
    DeleteQuicklink (DeleteQuicklink s none id).2 none id =
      (.ok (), (DeleteQuicklink s none id).2) ∧
    (∀ (env₁ env₂ : Env) (r₁ r₂ : Request QuicklinkReq),
      env₁.fault1 = none → env₂.fault1 = none →
      r₁.method = .DELETE → r₂.method = .DELETE →
      ParseInt r₁.queryId = .ok id → ParseInt r₂.queryId = .ok id →
      (Quicklinks env₁ r₁ s).resp = ⟨204, .empty⟩ ∧
      (Quicklinks env₂ r₂ (Quicklinks env₁ r₁ s).store).resp = ⟨204, .empty⟩ ∧
      (Quicklinks env₂ r₂ (Quicklinks env₁ r₁ s).store).store = (Quicklinks env₁ r₁ s).store) := by
  have hkeep : ∀ l : List QuicklinkRow, (∀ r ∈ l, r.id ≠ id) →
      l.filter (fun r => r.id != id) = l := by
    intro l h
    rw [List.filter_eq_self]
    intro r hr
    simpa using h r hr
  have hidem : (s.quicklinks.filter (fun r => r.id != id)).filter (fun r => r.id != id) =
      s.quicklinks.filter (fun r => r.id != id) := by
    rw [List.filter_filter]
    simp
  refine ⟨?_, rfl, ?_, ?_, ?_, ?_⟩
  · intro f
    cases f <;> simp [DeleteQuicklink]
  · intro r
    simp [DeleteQuicklink, List.mem_filter]
  · intro h
    simp [DeleteQuicklink, hkeep s.quicklinks h]
  · simp [DeleteQuicklink, hidem]
  · intro env₁ env₂ r₁ r₂ hf₁ hf₂ hm₁ hm₂ hp₁ hp₂
    simp [Quicklinks, hm₁, hm₂, hp₁, hp₂, hf₁, hf₂, DeleteQuicklink, hidem]

/-! ## Request validation -/

/-- C10: when the `id` query value does not parse as a base-10 signed 64-bit
integer, `DELETE` on the quicklinks endpoint and `PATCH` and `DELETE` on the
tasks endpoint answer 400 "invalid id", invoke no store method and leave the
store as it was, whatever the engine and the clock would report. -/
theorem invalid_id_rejected (env : Env) (s : Store) (q : String)
    (hq : ∀ id, ParseInt q ≠ .ok id) :
    (∀ r : Request QuicklinkReq, r.method = .DELETE → r.queryId = q →
      (Quicklinks env r s).resp = ⟨400, .text ("invalid id" ++ "\n")⟩ ∧
      (Quicklinks env r s).store = s ∧ (Quicklinks env r s).calls = []) ∧
    (∀ r : Request TaskReq, r.method = .PATCH ∨ r.method = .DELETE → r.queryId = q →
      (Tasks env r s).resp = ⟨400, .text ("invalid id" ++ "\n")⟩ ∧
      (Tasks env r s).store = s ∧ (Tasks env r s).calls = []) := by
  obtain ⟨e, he⟩ : ∃ e, ParseInt q = .error e := by
    cases h : ParseInt q with
    | error e => exact ⟨e, rfl⟩
    | ok id => exact absurd h (hq id)
  constructor
  · intro r hm hid
    subst hid
    simp [Quicklinks, hm, he, httpError]
  · intro r hm hid
    subst hid
    rcases hm with hm | hm <;> simp [Tasks, hm, he, httpError]

/-- C7: a `POST` to the tasks endpoint whose body decodes with an empty title
(a missing title decodes to the empty one), whatever its date, is answered 400
with the text "title is required" and a newline; no store method is invoked
and the store is left as it was. -/
theorem post_task_title_required (env : Env) (s : Store) (r : Request TaskReq)
    (req : TaskReq) (hm : r.method = .POST) (hd : r.decoded = .ok req)
    (ht : req.Title = "") :
    (Tasks env r s).resp = ⟨400, .text ("title is required" ++ "\n")⟩ ∧
    (Tasks env r s).store = s ∧ (Tasks env r s).calls = [] := by
  simp [Tasks, hm, hd, ht, httpError]

/-! ## Toggling -/

/-- C1: in a store with unique task ids, for a stored task whose `completed`
column is 0 or 1, two successive `ToggleTask` calls (their statements having
run) both succeed; the first returns the negation of the flag the task had, and
that is the flag the task has in the store afterwards; the second returns the
original flag and leaves the store exactly as it was before the first. -/
theorem toggleTask_twice (s : Store) (id : Int) (r : TaskRow)
    (hnd : (s.tasks.map (fun x => x.id)).Nodup) (hr : r ∈ s.tasks) (hid : r.id = id)
    (hb : r.completed = 0 ∨ r.completed = 1) :
    ∃ s₁ r₁,
      ToggleTask s none none id = (.ok (!(scanTask r).Completed), s₁) ∧
      findTask s₁ id = some r₁ ∧
      (scanTask r₁).Completed = !(scanTask r).Completed ∧
      (scanTask r₁).Completed ≠ (scanTask r).Completed ∧
      ToggleTask s₁ none none id = (.ok (scanTask r).Completed, s) := by
  have hfind : findTask s id = some r := by
    have := find_of_mem_nodup s.tasks r hnd hr
    rwa [hid] at this
  have hw : wrap64 (1 - r.completed) = 1 - r.completed :=
    wrap64_of_range _ (by rcases hb with h | h <;> rw [h] <;> norm_num)
      (by rcases hb with h | h <;> rw [h] <;> norm_num)
  have hw' : wrap64 (1 - (1 - r.completed)) = r.completed := by
    rw [wrap64_of_range _ (by rcases hb with h | h <;> rw [h] <;> norm_num)
      (by rcases hb with h | h <;> rw [h] <;> norm_num)]
    ring
  have hfind₁ := find_map_set_completed s.tasks id (1 - r.completed) r hfind
  have hflag : ((1 - r.completed) == 1) = !(r.completed == 1) := by
    rcases hb with h | h <;> rw [h] <;> decide
  have hret : (r.completed == 0) = !(r.completed == 1) := by
    rcases hb with h | h <;> rw [h] <;> decide
  have hret' : ((1 - r.completed) == 0) = (r.completed == 1) := by
    rcases hb with h | h <;> rw [h] <;> decide
  refine ⟨{ s with tasks := s.tasks.map (fun x =>
      if x.id = id then { x with completed := 1 - r.completed } else x) },
    { r with completed := 1 - r.completed }, ?_, hfind₁, ?_, ?_, ?_⟩
  · simp only [ToggleTask, hfind, hw, scanTask, hret]
  · simpa [scanTask] using hflag
  · simp only [scanTask, hflag]
    cases (r.completed == 1) <;> decide
  · have hfind₁' : findTask { s with tasks := s.tasks.map (fun x =>
        if x.id = id then { x with completed := 1 - r.completed } else x) } id =
        some { r with completed := 1 - r.completed } := hfind₁
    simp only [ToggleTask, hfind₁', hw', scanTask, hret']
    rw [map_set_completed_restore s.tasks id (1 - r.completed) r hnd hr hid]

/-- C9: for a `PATCH` to the tasks endpoint whose id parses: when no task row
has the id the answer is 404 "task not found" and the store is as it was; any
error of `ToggleTask`, `ErrNotFound` or not, gives that same 404 with the store
as it was; the answer is 200 exactly when `ToggleTask` succeeded, its body then
is the object with the one field "completed" holding the returned value, and
that value is the flag the task has in the store afterwards (the column
holding a 64-bit integer). -/
theorem patch_task_status (env : Env) (s : Store) (r : Request TaskReq) (id : Int)
    (hm : r.method = .PATCH) (hp : ParseInt r.queryId = .ok id) :
    ((∀ t ∈ s.tasks, t.id ≠ id) →
      (Tasks env r s).resp = ⟨404, .text ("task not found" ++ "\n")⟩ ∧
      (Tasks env r s).store = s) ∧
    (∀ e, (ToggleTask s env.fault1 env.fault2 id).1 = .error e →
      (Tasks env r s).resp = ⟨404, .text ("task not found" ++ "\n")⟩ ∧
      (Tasks env r s).store = s) ∧
    (∀ b, (ToggleTask s env.fault1 env.fault2 id).1 = .ok b →
      (Tasks env r s).resp = ⟨200, .json (.obj [("completed", .bool b)])⟩ ∧
      ∃ t t', findTask s id = some t ∧ findTask (Tasks env r s).store id = some t' ∧
        (-(2 ^ 63) ≤ t.completed → t.completed < 2 ^ 63 → (scanTask t').Completed = b)) ∧
    ((Tasks env r s).resp.status = 200 ↔ ∃ b, (ToggleTask s env.fault1 env.fault2 id).1 = .ok b) ∧
    (Tasks env r s).calls = [.toggleTask id] := by
  have herr : ∀ e, (ToggleTask s env.fault1 env.fault2 id).1 = .error e →
      (ToggleTask s env.fault1 env.fault2 id).2 = s := by
    intro e he
    unfold ToggleTask at he ⊢
    rcases env with ⟨_, _, _, f₁, f₂⟩
    cases f₁ <;> cases f₂ <;> cases hfind : findTask s id <;> simp_all
  have hT : Tasks env r s =
      match ToggleTask s env.fault1 env.fault2 id with
      | (.error _, s') => ⟨httpError "task not found" 404, s', [.toggleTask id]⟩
      | (.ok completed, s') =>
        ⟨jsonOK (.obj [("completed", .bool completed)]), s', [.toggleTask id]⟩ := by
    simp [Tasks, hm, hp]
  refine ⟨?_, ?_, ?_, ?_, ?_⟩
  · intro habs
    have hnone : findTask s id = none := find_eq_none_of_absent s.tasks id habs
    rw [hT]
    cases hf : env.fault1 <;> simp [ToggleTask, hnone, httpError]
  · intro e he
    have hs := herr e he
    rw [hT]
    rcases hres : ToggleTask s env.fault1 env.fault2 id with ⟨res, s'⟩
    rw [hres] at he hs
    simp only at he hs
    subst he hs
    simp [httpError]
  · intro b hb
    rw [hT]
    unfold ToggleTask at hb ⊢
    cases hf₁ : env.fault1 with
    | some e => simp [hf₁] at hb
    | none =>
      cases hfind : findTask s id with
      | none => simp [hf₁, hfind] at hb
      | some t =>
        cases hf₂ : env.fault2 with
        | some e => simp [hf₁, hfind, hf₂] at hb
        | none =>
          simp only [hf₁, hfind, hf₂, Except.ok.injEq] at hb
          subst hb
          refine ⟨by simp [jsonOK], t, { t with completed := wrap64 (1 - t.completed) }, rfl,
            find_map_set_completed s.tasks id _ t hfind, ?_⟩
          intro h₁ h₂
          simp only [scanTask]
          rw [Bool.eq_iff_iff]
          simp only [beq_iff_eq]
          unfold wrap64
          norm_num at h₁ h₂ ⊢
          constructor <;> intro h <;> omega
  · rw [hT]
    rcases hres : ToggleTask s env.fault1 env.fault2 id with ⟨res, s'⟩
    cases res <;> simp [httpError, jsonOK]
  · rw [hT]
    rcases hres : ToggleTask s env.fault1 env.fault2 id with ⟨res, s'⟩
    cases res <;> simp

/-! ## Creating -/

/-- C8: for a `POST` to the tasks endpoint whose body decodes with a non-empty
title, `CreateTask` is invoked with the clock's date reading taken in the
`POST` branch when the body date is empty and with the body date itself
otherwise, whatever the `date` query parameter is.  The answer is 200 when the
insert ran and the id space is not used up; an answer of 200 echoes that date
in the encoded task and the store has gained one row holding it; any other
answer leaves the store as it was. -/
theorem post_task_date_default (env : Env) (s : Store) (r : Request TaskReq)
    (req : TaskReq) (date : String) (hm : r.method = .POST) (hd : r.decoded = .ok req)
    (ht : req.Title ≠ "")
    (hdate : date = if req.Date = "" then env.todayPost else req.Date) :
    (req.Date = "" → date = env.todayPost) ∧ (req.Date ≠ "" → date = req.Date) ∧
    (Tasks env r s).calls = [.createTask req.Title date] ∧
    (env.fault1 = none → nextId s.taskSeq (s.tasks.map (fun x => x.id)) ≤ 2 ^ 63 - 1 →
      (Tasks env r s).resp.status = 200) ∧
    ((Tasks env r s).resp.status = 200 → ∃ id,
      (Tasks env r s).resp = ⟨200, .json (encodeTask ⟨id, req.Title, false, date, ""⟩)⟩ ∧
      (Tasks env r s).store.tasks = s.tasks ++ [⟨id, req.Title, 0, date, env.timestamp⟩]) ∧
    ((Tasks env r s).resp.status ≠ 200 → (Tasks env r s).store = s) := by
  have hT : Tasks env r s =
      match CreateTask s env.fault1 env.timestamp req.Title date with
      | (.error err, s') => ⟨httpError err.text 500, s', [.createTask req.Title date]⟩
      | (.ok task, s') => ⟨jsonOK (encodeTask task), s', [.createTask req.Title date]⟩ := by
    subst hdate
    simp [Tasks, hm, hd, ht]
  have hcases : (∃ e, CreateTask s env.fault1 env.timestamp req.Title date =
        (.error e, s)) ∨
      (¬ nextId s.taskSeq (s.tasks.map (fun r => r.id)) > 2 ^ 63 - 1 ∧ env.fault1 = none ∧
        CreateTask s env.fault1 env.timestamp req.Title date =
          (.ok ⟨nextId s.taskSeq (s.tasks.map (fun r => r.id)), req.Title, false, date, ""⟩,
           { s with
             tasks := s.tasks ++ [⟨nextId s.taskSeq (s.tasks.map (fun r => r.id)), req.Title, 0,
               date, env.timestamp⟩],
             taskSeq := nextId s.taskSeq (s.tasks.map (fun r => r.id)) })) := by
    cases hf : env.fault1 with
    | some e => exact Or.inl ⟨_, createTask_fault s e _ _ _⟩
    | none =>
      by_cases hfull : nextId s.taskSeq (s.tasks.map (fun r => r.id)) > 2 ^ 63 - 1
      · exact Or.inl ⟨_, createTask_full s _ _ _ hfull⟩
      · exact Or.inr ⟨hfull, rfl, createTask_ok s _ _ _ hfull⟩
  refine ⟨fun h => by simp [hdate, h], fun h => by simp [hdate, h], ?_, ?_, ?_, ?_⟩
  · rw [hT]
    rcases hcases with ⟨e, he⟩ | ⟨_, _, hok⟩
    · rw [he]
    · rw [hok]
  · intro hf hid
    rw [hT]
    rcases hcases with ⟨e, he⟩ | ⟨_, _, hok⟩
    · rw [hf] at he
      rw [createTask_ok s _ _ _ (by omega)] at he
      cases he
    · rw [hok]
      rfl
  · intro hstatus
    rw [hT] at hstatus ⊢
    rcases hcases with ⟨e, he⟩ | ⟨_, _, hok⟩
    · rw [he] at hstatus
      simp [httpError] at hstatus
    · rw [hok]
      exact ⟨_, rfl, rfl⟩
  · intro hstatus
    rw [hT] at hstatus ⊢
    rcases hcases with ⟨e, he⟩ | ⟨_, _, hok⟩
    · rw [he]
    · rw [hok] at hstatus
      simp [jsonOK] at hstatus

/-- C4 as amended: when `CreateTask` succeeds and returns `t`, the returned
task has the arguments as title and date, `completed = false` and an empty
`CreatedAt`; a `GetTasks` for the date right after lists exactly one task with
the id of `t`, and that task is `t` with `CreatedAt` set to the timestamp the
engine stored.  The listing holds `t` itself only if that timestamp is empty. -/
theorem createTask_then_getTasks (s s' : Store) (f : Fault) (now title date : String)
    (t : Task) (h : CreateTask s f now title date = (.ok t, s')) :
    t.Title = title ∧ t.Date = date ∧ t.Completed = false ∧ t.CreatedAt = "" ∧
    ∃ tasks, GetTasks s' none date = .ok tasks ∧
      { t with CreatedAt := now } ∈ tasks.toList ∧
      tasks.toList.filter (fun x => x.ID = t.ID) = [{ t with CreatedAt := now }] ∧
      (t ∈ tasks.toList → now = "") := by
  have hnew : ¬ nextId s.taskSeq (s.tasks.map (fun r => r.id)) > 2 ^ 63 - 1 ∧ f = none := by
    cases f with
    | some e => rw [createTask_fault] at h; cases h
    | none =>
      by_cases hfull : nextId s.taskSeq (s.tasks.map (fun r => r.id)) > 2 ^ 63 - 1
      · rw [createTask_full s _ _ _ hfull] at h; cases h
      · exact ⟨hfull, rfl⟩
  obtain ⟨hfull, rfl⟩ := hnew
  rw [createTask_ok s _ _ _ hfull] at h
  simp only [Prod.mk.injEq, Except.ok.injEq] at h
  obtain ⟨ht, hs⟩ := h
  subst ht hs
  have hmem : (⟨nextId s.taskSeq (s.tasks.map (fun r => r.id)), title, 0, date, now⟩ : TaskRow) ∈
      selectTasks { s with
        tasks := s.tasks ++ [⟨nextId s.taskSeq (s.tasks.map (fun r => r.id)), title, 0, date, now⟩],
        taskSeq := nextId s.taskSeq (s.tasks.map (fun r => r.id)) } date := by
    rw [(selectTasks_perm _ _).mem_iff]
    simp [List.mem_filter]
  have hold : ∀ x ∈ s.tasks, ¬ x.id = nextId s.taskSeq (s.tasks.map (fun r => r.id)) := by
    intro x hx heq
    have := lt_nextId (s.tasks.map (fun r => r.id)) s.taskSeq x.id (List.mem_map.2 ⟨x, hx, rfl⟩)
    omega
  refine ⟨rfl, rfl, rfl, rfl, _, rfl, ?_, ?_, ?_⟩
  · rw [foldl_append_toList]
    simp only [Slice.toList, List.nil_append, List.mem_map]
    exact ⟨_, hmem, by simp [scanTask]⟩
  · rw [foldl_append_toList]
    simp only [Slice.toList, List.nil_append]
    have hperm := ((selectTasks_perm { s with
        tasks := s.tasks ++ [⟨nextId s.taskSeq (s.tasks.map (fun r => r.id)), title, 0, date, now⟩],
        taskSeq := nextId s.taskSeq (s.tasks.map (fun r => r.id)) } date).map scanTask).filter
      (fun x => decide (x.ID = nextId s.taskSeq (s.tasks.map (fun r => r.id))))
    have hrhs : ((({ s with
        tasks := s.tasks ++ [⟨nextId s.taskSeq (s.tasks.map (fun r => r.id)), title, 0, date, now⟩],
        taskSeq := nextId s.taskSeq (s.tasks.map (fun r => r.id)) } : Store).tasks.filter
          (fun r => r.date == date)).map scanTask).filter
        (fun x => decide (x.ID = nextId s.taskSeq (s.tasks.map (fun r => r.id)))) =
        [⟨nextId s.taskSeq (s.tasks.map (fun r => r.id)), title, false, date, now⟩] := by
      simp only [List.filter_append, List.map_append, List.filter_cons, List.filter_nil,
        beq_self_eq_true, if_true, List.map_cons, List.map_nil, scanTask, decide_True]
      have hnil : ((s.tasks.filter (fun r => r.date == date)).map scanTask).filter
          (fun x => decide (x.ID = nextId s.taskSeq (s.tasks.map (fun r => r.id)))) = [] := by
        rw [List.filter_eq_nil_iff]
        intro x hx
        obtain ⟨y, hy, rfl⟩ := List.mem_map.1 hx
        simpa [scanTask] using hold y (List.mem_filter.1 hy).1
      simp only [scanTask] at hnil
      rw [hnil]
      simp
    rw [hrhs] at hperm
    exact List.perm_singleton.1 hperm
  · intro hin
    rw [foldl_append_toList] at hin
    simp only [Slice.toList, List.nil_append, List.mem_map] at hin
    obtain ⟨y, hy, heq⟩ := hin
    rw [(selectTasks_perm _ _).mem_iff] at hy
    simp only [List.mem_filter, List.mem_append, List.mem_singleton] at hy
    rcases hy.1 with hy' | rfl
    · exact absurd (by simpa [scanTask] using congrArg Task.ID heq) (hold y hy')
    · simpa [scanTask] using congrArg Task.CreatedAt heq

/-- C4 fails as stated: on the fresh store, `CreateTask` returns a task with an
empty `CreatedAt`, the listing for its date holds the stored timestamp, so the
returned task value is not an element of the listing. -/
theorem createTask_value_not_listed :
    CreateTask Store.empty none "2024-03-05 10:00:00" "buy milk" "2024-03-05" =
      (.ok ⟨1, "buy milk", false, "2024-03-05", ""⟩,
       ⟨[⟨1, "buy milk", 0, "2024-03-05", "2024-03-05 10:00:00"⟩], 1, [], 0⟩) ∧
    GetTasks ⟨[⟨1, "buy milk", 0, "2024-03-05", "2024-03-05 10:00:00"⟩], 1, [], 0⟩ none
        "2024-03-05" =
      .ok (.mk [⟨1, "buy milk", false, "2024-03-05", "2024-03-05 10:00:00"⟩]) ∧
    (⟨1, "buy milk", false, "2024-03-05", ""⟩ : Task) ∉
      (Slice.mk [(⟨1, "buy milk", false, "2024-03-05", "2024-03-05 10:00:00"⟩ : Task)]).toList := by
  decide

/-- C5 on the code: a `GET` on the tasks endpoint for a date no task row has,
the query having run, is answered 200 with the JSON value `null`, which is not
the empty array: `GetTasks` returns its nil slice untouched. -/
theorem get_tasks_no_rows_null (env : Env) (s : Store) (r : Request TaskReq) (d : String)
    (hm : r.method = .GET) (hq : r.queryDate = d) (hd : d ≠ "") (hf : env.fault1 = none)
    (hnone : ∀ t ∈ s.tasks, t.date ≠ d) :
    (Tasks env r s).resp = ⟨200, .json .null⟩ ∧ Json.null ≠ Json.arr [] ∧
    GetTasks s none d = .ok .nil := by
  have hsel : selectTasks s d = [] := by
    have : s.tasks.filter (fun r => r.date == d) = [] := by
      rw [List.filter_eq_nil_iff]
      intro t ht
      simpa using hnone t ht
    simp [selectTasks, this]
  have hget : GetTasks s none d = .ok .nil := by
    simp [GetTasks, hsel]
  refine ⟨?_, (fun h => Json.noConfusion h), hget⟩
  subst hq
  simp [Tasks, hm, hd, hf, hget, jsonOK, encodeSlice]

/-! ## Instances on the sample data -/

/-- Witness of `toggleTask_twice`: task 1 of the sample store, not completed. -/
theorem toggleTask_twice_witness :
    ∃ s₁, ToggleTask sampleStore none none 1 = (.ok true, s₁) ∧
      ToggleTask s₁ none none 1 = (.ok false, sampleStore) := by
  obtain ⟨s₁, _, h₁, _, _, _, h₂⟩ :=
    toggleTask_twice sampleStore 1 ⟨1, "write report", 0, "2024-03-04", "2024-03-04 09:15:00"⟩
      (by decide) (by decide) rfl (by decide)
  exact ⟨s₁, h₁, h₂⟩

/-- Witness of `deleteTask_notFound_iff`: task 2 is stored, no task has id 9. -/
theorem deleteTask_notFound_iff_witness :
    (DeleteTask sampleStore none 2).1 = .ok () ∧
    (DeleteTask sampleStore none 2).2.tasks.length + 1 = sampleStore.tasks.length ∧
    (DeleteTask sampleStore none 9).1 = .error .notFound ∧
    (DeleteTask sampleStore none 9).2 = sampleStore ∧
    (Tasks sampleEnv ⟨.DELETE, "", "2", .error "EOF"⟩ sampleStore).resp = ⟨204, .empty⟩ ∧
    (Tasks sampleEnv ⟨.DELETE, "", "2", .error "EOF"⟩
      (Tasks sampleEnv ⟨.DELETE, "", "2", .error "EOF"⟩ sampleStore).store).resp =
      httpError "task not found" 404 := by
  have h2 := deleteTask_notFound_iff sampleStore 2
  have h9 := deleteTask_notFound_iff sampleStore 9
  have hex : ∃ r ∈ sampleStore.tasks, r.id = 2 := by decide
  have habs : ∀ r ∈ sampleStore.tasks, r.id ≠ 9 := by decide
  have hh := h2.2.2.2 sampleEnv sampleEnv ⟨.DELETE, "", "2", .error "EOF"⟩
    ⟨.DELETE, "", "2", .error "EOF"⟩ rfl rfl rfl rfl (by decide) (by decide) hex
  exact ⟨(h2.2.2.1 hex).1, (h2.2.2.1 hex).2.2.2.1 (by decide), h9.1.2 habs, h9.2.1 habs,
    hh.1, hh.2.1⟩

/-- Witness of `deleteQuicklink_never_notFound`: no quicklink has id 7, and
`DELETE` twice for the stored quicklink 1. -/
theorem deleteQuicklink_never_notFound_witness :
    DeleteQuicklink sampleStore none 7 = (.ok (), sampleStore) ∧
    (Quicklinks sampleEnv ⟨.DELETE, "", "1", .error "EOF"⟩ sampleStore).resp = ⟨204, .empty⟩ ∧
    (Quicklinks sampleEnv ⟨.DELETE, "", "1", .error "EOF"⟩
      (Quicklinks sampleEnv ⟨.DELETE, "", "1", .error "EOF"⟩ sampleStore).store).resp =
      ⟨204, .empty⟩ := by
  have h7 := deleteQuicklink_never_notFound sampleStore 7
  have h1 := (deleteQuicklink_never_notFound sampleStore 1).2.2.2.2.2 sampleEnv sampleEnv
    ⟨.DELETE, "", "1", .error "EOF"⟩ ⟨.DELETE, "", "1", .error "EOF"⟩ rfl rfl rfl rfl
    (by decide) (by decide)
  exact ⟨h7.2.2.2.1 (by decide), h1.1, h1.2.1⟩

/-- Witness of `createTask_then_getTasks`: a fourth task created in the sample
store. -/
theorem createTask_then_getTasks_witness :
    ∃ tasks,
      GetTasks
        { sampleStore with
          tasks := sampleStore.tasks ++
            [⟨4, "buy milk", 0, "2024-03-05", "2024-03-05 10:00:00"⟩],
          taskSeq := 4 } none "2024-03-05" = .ok tasks ∧
      (⟨4, "buy milk", false, "2024-03-05", "2024-03-05 10:00:00"⟩ : Task) ∈ tasks.toList := by
  obtain ⟨_, _, _, _, tasks, h₁, h₂, _⟩ :=
    createTask_then_getTasks sampleStore
      { sampleStore with
        tasks := sampleStore.tasks ++
          [⟨4, "buy milk", 0, "2024-03-05", "2024-03-05 10:00:00"⟩],
        taskSeq := 4 }
      none "2024-03-05 10:00:00" "buy milk" "2024-03-05"
      ⟨4, "buy milk", false, "2024-03-05", ""⟩ (by decide)
  exact ⟨tasks, h₁, h₂⟩

/-- Witness of `getTasks_lists_date`: no sample task has the date 2024-01-01. -/
theorem getTasks_lists_date_witness :
    ∃ tasks, GetTasks sampleStore none "2024-01-01" = .ok tasks ∧ tasks.toList = [] := by
  obtain ⟨tasks, h₁, _, _, _, h₂⟩ := getTasks_lists_date sampleStore "2024-01-01"
  exact ⟨tasks, h₁, h₂ (by decide)⟩

/-- Witness of `post_task_title_required`: a body with a date and no title. -/
theorem post_task_title_required_witness :
    (Tasks sampleEnv ⟨.POST, "", "", .ok ⟨"", "2024-03-05"⟩⟩ sampleStore).resp =
      ⟨400, .text ("title is required" ++ "\n")⟩ ∧
    (Tasks sampleEnv ⟨.POST, "", "", .ok ⟨"", "2024-03-05"⟩⟩ sampleStore).store = sampleStore ∧
    (Tasks sampleEnv ⟨.POST, "", "", .ok ⟨"", "2024-03-05"⟩⟩ sampleStore).calls = [] :=
  post_task_title_required sampleEnv sampleStore ⟨.POST, "", "", .ok ⟨"", "2024-03-05"⟩⟩
    ⟨"", "2024-03-05"⟩ rfl rfl rfl

/-- Witness of `post_task_date_default`: a body without date, sent with a
`date` query parameter. -/
theorem post_task_date_default_witness :
    (Tasks sampleEnv ⟨.POST, "1999-12-31", "", .ok ⟨"buy milk", ""⟩⟩ sampleStore).calls =
      [.createTask "buy milk" "2024-03-05"] ∧
    (Tasks sampleEnv ⟨.POST, "1999-12-31", "", .ok ⟨"buy milk", ""⟩⟩ sampleStore).resp.status =
      200 := by
  have h := post_task_date_default sampleEnv sampleStore
    ⟨.POST, "1999-12-31", "", .ok ⟨"buy milk", ""⟩⟩ ⟨"buy milk", ""⟩ "2024-03-05" rfl rfl
    (by decide) (by decide)
  exact ⟨h.2.2.1, h.2.2.2.1 rfl (by decide)⟩

/-- Witness of `patch_task_status`: no task has id 9; task 1 is not completed. -/
theorem patch_task_status_witness :
    (Tasks sampleEnv ⟨.PATCH, "", "9", .error "EOF"⟩ sampleStore).resp =
      ⟨404, .text ("task not found" ++ "\n")⟩ ∧
    (Tasks faultyEnv ⟨.PATCH, "", "1", .error "EOF"⟩ sampleStore).resp =
      ⟨404, .text ("task not found" ++ "\n")⟩ ∧
    (Tasks sampleEnv ⟨.PATCH, "", "1", .error "EOF"⟩ sampleStore).resp =
      ⟨200, .json (.obj [("completed", .bool true)])⟩ := by
  have h9 := patch_task_status sampleEnv sampleStore ⟨.PATCH, "", "9", .error "EOF"⟩ 9 rfl
    (by decide)
  have hf := patch_task_status faultyEnv sampleStore ⟨.PATCH, "", "1", .error "EOF"⟩ 1 rfl
    (by decide)
  have h1 := patch_task_status sampleEnv sampleStore ⟨.PATCH, "", "1", .error "EOF"⟩ 1 rfl
    (by decide)
  exact ⟨(h9.1 (by decide)).1, (hf.2.1 (.storage "disk I/O error") (by decide)).1,
    (h1.2.2.1 true (by decide)).1⟩

/-- Witness of `invalid_id_rejected`: the id values "abc", "" and 2^63. -/
theorem invalid_id_rejected_witness :
    (Quicklinks sampleEnv ⟨.DELETE, "", "abc", .error "EOF"⟩ sampleStore).resp =
      ⟨400, .text ("invalid id" ++ "\n")⟩ ∧
    (Tasks faultyEnv ⟨.PATCH, "", "", .error "EOF"⟩ sampleStore).store = sampleStore ∧
    (Tasks sampleEnv ⟨.DELETE, "", "9223372036854775808", .error "EOF"⟩ sampleStore).calls =
      [] := by
  have e₁ : ParseInt "abc" = .error .malformed := by decide
  have e₂ : ParseInt "" = .error .malformed := by decide
  have e₃ : ParseInt "9223372036854775808" = .error .outOfRange := by decide
  have h₁ := invalid_id_rejected sampleEnv sampleStore "abc"
    (fun id h => by rw [e₁] at h; cases h)
  have h₂ := invalid_id_rejected faultyEnv sampleStore ""
    (fun id h => by rw [e₂] at h; cases h)
  have h₃ := invalid_id_rejected sampleEnv sampleStore "9223372036854775808"
    (fun id h => by rw [e₃] at h; cases h)
  exact ⟨(h₁.1 ⟨.DELETE, "", "abc", .error "EOF"⟩ rfl rfl).1,
    (h₂.2 ⟨.PATCH, "", "", .error "EOF"⟩ (Or.inl rfl) rfl).2.1,
    (h₃.2 ⟨.DELETE, "", "9223372036854775808", .error "EOF"⟩ (Or.inr rfl) rfl).2.2⟩

/-- Witness of `get_tasks_no_rows_null`: a `GET` for 2024-01-01 on the fresh
store. -/
theorem get_tasks_no_rows_null_witness :
    (Tasks sampleEnv ⟨.GET, "2024-01-01", "", .error "EOF"⟩ Store.empty).resp =
      ⟨200, .json .null⟩ :=
  (get_tasks_no_rows_null sampleEnv Store.empty ⟨.GET, "2024-01-01", "", .error "EOF"⟩
    "2024-01-01" rfl rfl (by decide) rfl (by decide)).1

/-! ## Evaluation checks -/

theorem parseInt_letters : ParseInt "abc" = .error .malformed := by decide

theorem parseInt_blank : ParseInt "" = .error .malformed := by decide

theorem parseInt_sign_only : ParseInt "-" = .error .malformed := by decide

theorem parseInt_underscore : ParseInt "4_2" = .error .malformed := by decide

theorem parseInt_above_max : ParseInt "9223372036854775808" = .error .outOfRange := by decide

theorem parseInt_below_min : ParseInt "-9223372036854775809" = .error .outOfRange := by decide

theorem parseInt_max : ParseInt "9223372036854775807" = .ok 9223372036854775807 := by decide

theorem parseInt_min : ParseInt "-9223372036854775808" = .ok (-9223372036854775808) := by decide

theorem parseInt_plus : ParseInt "+42" = .ok 42 := by decide

theorem getTasks_sample_order :
    GetTasks sampleStore none "2024-03-04" =
      .ok (.mk [⟨2, "call bank", true, "2024-03-04", "2024-03-04 08:00:00"⟩,
                ⟨1, "write report", false, "2024-03-04", "2024-03-04 09:15:00"⟩]) := by
  decide

theorem sampleStore_valid : sampleStore.Valid :=
  ⟨by decide, by decide⟩

end Tick
